import Mathlib

/-!
Shallow embedding of the tensorlight dataset-loading pipelines
(`tensorlight/datasets/ms_pacman.py` and `tensorlight/datasets/ucf101.py`).

Pixel values are modelled as exact rationals; a frame is a
height-indexed list of rows, each row a width-indexed list of pixels,
each pixel a channel-indexed list of values, mirroring the
`[H, W, C]` uint8 arrays of the source.  Randomness (numpy / `random`
draws) is modelled as explicit oracle arguments.
-/

namespace TLight

/-- One pixel: the list of its channel values. -/
abbrev Chan := List ℚ

/-- One image row: width-indexed pixels. -/
abbrev ImgRow := List Chan

/-- One frame: height-indexed rows, i.e. an `[H, W, C]` array. -/
abbrev Frame := List ImgRow

/-- Sum of squared differences over one pixel's channels. -/
def sqDiffChan (a b : Chan) : ℚ := (List.zipWith (fun x y => (x - y) ^ 2) a b).sum

/-- Sum of squared differences over one row. -/
def sqDiffRow (a b : ImgRow) : ℚ := (List.zipWith sqDiffChan a b).sum

/-- `np.sum(np.square(a - b))` for two frames. -/
def sqDiffFrame (a b : Frame) : ℚ := (List.zipWith sqDiffRow a b).sum

/-- `frame / 127.5`: the scaling to a `[-1, 1]`-equivalent range used by
`enough_l2_movement` in both dataset modules. -/
def scaleFrame (f : Frame) : Frame :=
  f.map (fun row => row.map (fun p => p.map (fun v => v / 127.5)))

/-- `MIN_L2_DIFF_PER_FRAME = 25.0`, identical in
`ms_pacman.py` and `ucf101.py`. -/
def MIN_L2_DIFF_PER_FRAME : ℚ := 25

/-- Squared L2 difference of the consecutive pair `(i, i+1)` of a frame list
(out-of-range indices give the empty frame, whose difference is `0`;
the walks below never step out of range). -/
def pairAt (fs : List Frame) (i : ℕ) : ℚ :=
  sqDiffFrame (fs.getD i []) (fs.getD (i + 1) [])

/-- The backward accumulation walk shared by both copies of
`enough_l2_movement`: process pair `(i, i+1)`, then descend to `i - 1`.
`zc` is `true` for the Ms. Pac-Man copy, which rejects immediately when the
accumulated difference is exactly zero after the first (last-pair) step. -/
def l2walk (fs : List Frame) (n : ℕ) (zc : Bool) : ℕ → ℚ → Bool
  | 0, diff =>
    let d := diff + pairAt fs 0
    if zc = true ∧ 0 + 2 = n ∧ d = 0 then false
    else decide (MIN_L2_DIFF_PER_FRAME * (n : ℚ) ≤ d)
  | i + 1, diff =>
    let d := diff + pairAt fs (i + 1)
    if zc = true ∧ i + 3 = n ∧ d = 0 then false
    else if MIN_L2_DIFF_PER_FRAME * (n : ℚ) ≤ d then true
    else l2walk fs n zc i d

namespace MsPacman

/-- `ms_pacman.enough_l2_movement` (lines 34-52): scale by `1/127.5`,
walk the consecutive pairs backward, reject immediately when the first
(last-pair) step accumulates exactly zero, accept as soon as the running sum
reaches `25.0 * n`, reject when the walk completes below the threshold. -/
def enough_l2_movement (frames : List Frame) : Bool :=
  let frames_scaled := frames.map scaleFrame
  match frames.length with
  | 0 => false
  | 1 => false
  | m + 2 => l2walk frames_scaled (m + 2) true m 0

end MsPacman

namespace UCF101

/-- `ucf101.enough_l2_movement` (lines 256-269): identical to the
Ms. Pac-Man copy except that it has no zero-difference early reject. -/
def enough_l2_movement (frames : List Frame) : Bool :=
  let frames_scaled := frames.map scaleFrame
  match frames.length with
  | 0 => false
  | 1 => false
  | m + 2 => l2walk frames_scaled (m + 2) false m 0

end UCF101

/-! ### Basic facts about the squared-difference sums -/

lemma sqDiffChan_self (a : Chan) : sqDiffChan a a = 0 := by
  induction a with
  | nil => rfl
  | cons x t _ => simp [sqDiffChan, List.zipWith_cons_cons]

lemma sqDiffRow_self (a : ImgRow) : sqDiffRow a a = 0 := by
  induction a with
  | nil => rfl
  | cons x t _ =>
    simp [sqDiffRow, List.zipWith_cons_cons, sqDiffChan_self]

lemma sqDiffFrame_self (a : Frame) : sqDiffFrame a a = 0 := by
  induction a with
  | nil => rfl
  | cons x t _ =>
    simp [sqDiffFrame, List.zipWith_cons_cons, sqDiffRow_self]

lemma sqDiffChan_nonneg (a b : Chan) : 0 ≤ sqDiffChan a b := by
  induction a generalizing b with
  | nil => simp [sqDiffChan]
  | cons x t ih =>
    cases b with
    | nil => simp [sqDiffChan]
    | cons y u =>
      simp only [sqDiffChan, List.zipWith_cons_cons, List.sum_cons]
      exact add_nonneg (sq_nonneg _) (ih u)

lemma sqDiffRow_nonneg (a b : ImgRow) : 0 ≤ sqDiffRow a b := by
  induction a generalizing b with
  | nil => simp [sqDiffRow]
  | cons x t ih =>
    cases b with
    | nil => simp [sqDiffRow]
    | cons y u =>
      simp only [sqDiffRow, List.zipWith_cons_cons, List.sum_cons]
      exact add_nonneg (sqDiffChan_nonneg _ _) (ih u)

lemma sqDiffFrame_nonneg (a b : Frame) : 0 ≤ sqDiffFrame a b := by
  induction a generalizing b with
  | nil => simp [sqDiffFrame]
  | cons x t ih =>
    cases b with
    | nil => simp [sqDiffFrame]
    | cons y u =>
      simp only [sqDiffFrame, List.zipWith_cons_cons, List.sum_cons]
      exact add_nonneg (sqDiffRow_nonneg _ _) (ih u)

lemma pairAt_nonneg (fs : List Frame) (i : ℕ) : 0 ≤ pairAt fs i :=
  sqDiffFrame_nonneg _ _

lemma pairAt_replicate (g : Frame) (k i : ℕ) :
    pairAt (List.replicate k g) i = 0 := by
  unfold pairAt
  have h : ∀ j, (List.replicate k g).getD j [] = g ∨
      (List.replicate k g).getD j [] = ([] : Frame) := by
    intro j
    by_cases hj : j < k
    · left
      simp [List.getD, List.getElem?_replicate, hj]
    · right
      simp [List.getD, List.getElem?_replicate, hj]
  rcases h i with h1 | h1 <;> rcases h (i + 1) with h2 | h2 <;> rw [h1, h2]
  · exact sqDiffFrame_self g
  · simp [sqDiffFrame]
  · simp [sqDiffFrame]
  · simp [sqDiffFrame]

/-- If every remaining pair contributes zero and the threshold is positive,
the backward walk rejects (for either variant of the zero-check flag). -/
lemma l2walk_zero (fs : List Frame) (n : ℕ) (zc : Bool)
    (hz : ∀ j, pairAt fs j = 0) (hn : 0 < MIN_L2_DIFF_PER_FRAME * (n : ℚ)) :
    ∀ i, l2walk fs n zc i 0 = false := by
  intro i
  have hd : ¬ MIN_L2_DIFF_PER_FRAME * (n : ℚ) ≤ 0 := not_le.mpr hn
  induction i with
  | zero =>
    simp only [l2walk, hz, add_zero]
    rcases Decidable.em (zc = true ∧ 0 + 2 = n ∧ True) with h1 | h1
    · rw [if_pos h1]
    · rw [if_neg h1]
      simpa using hd
  | succ j ih =>
    simp only [l2walk, hz, add_zero]
    rcases Decidable.em (zc = true ∧ j + 3 = n ∧ True) with h1 | h1
    · rw [if_pos h1]
    · rw [if_neg h1, if_neg hd]
      exact ih

/-- The Ms. Pac-Man zero-check: when the first backward step (the last frame
pair) accumulates exactly zero, the walk rejects immediately. -/
lemma l2walk_zc_last (fs : List Frame) (m : ℕ) (h0 : pairAt fs m = 0) :
    l2walk fs (m + 2) true m 0 = false := by
  cases m with
  | zero => simp [l2walk, h0]
  | succ j => simp [l2walk, h0]

/-- Running-sum characterisation of the walk without the zero-check:
because every pair contributes a nonnegative amount, the any-point test
succeeds exactly when the final accumulated sum reaches the threshold. -/
lemma l2walk_true_iff (fs : List Frame) (n : ℕ) :
    ∀ (i : ℕ) (d : ℚ), (l2walk fs n false i d = true ↔
      MIN_L2_DIFF_PER_FRAME * (n : ℚ) ≤ d + ∑ j ∈ Finset.range (i + 1), pairAt fs j) := by
  intro i
  induction i with
  | zero =>
    intro d
    simp [l2walk, Finset.sum_range_one]
  | succ j ih =>
    intro d
    rw [Finset.sum_range_succ]
    by_cases hle : MIN_L2_DIFF_PER_FRAME * (n : ℚ) ≤ d + pairAt fs (j + 1)
    · constructor
      · intro _
        have hs : 0 ≤ ∑ k ∈ Finset.range (j + 1), pairAt fs k :=
          Finset.sum_nonneg (fun k _ => pairAt_nonneg fs k)
        linarith
      · intro _
        simp [l2walk, hle]
    · have hstep : l2walk fs n false (j + 1) d = l2walk fs n false j (d + pairAt fs (j + 1)) := by
        simp [l2walk, hle]
      rw [hstep, ih (d + pairAt fs (j + 1))]
      constructor <;> intro hx <;> linarith

/-- Modelled from the spec (the plain final-sum comparison that claim C8
equates with the UCF-101 motion filter): the total accumulated squared L2
difference over all consecutive pairs, after scaling by `1/127.5`. -/
def totalL2Diff (frames : List Frame) : ℚ :=
  ∑ j ∈ Finset.range (frames.length - 1), pairAt (frames.map scaleFrame) j

/-- Modelled from the spec: accept a frame sequence exactly when the total
accumulated difference is at least `25.0 * n`. -/
def final_sum_test (frames : List Frame) : Bool :=
  decide (MIN_L2_DIFF_PER_FRAME * (frames.length : ℚ) ≤ totalL2Diff frames)

/-- Frame with 19 black pixels (one row, one channel). -/
def frameA : Frame := [List.replicate 19 [(0 : ℚ)]]

/-- Frame with 19 white pixels (one row, one channel). -/
def frameB : Frame := [List.replicate 19 [(255 : ℚ)]]

/-- Three frames: a large jump between the first two, then no change at all
between the last two. -/
def movedThenStill : List Frame := [frameA, frameB, frameB]

/-- Claim C2 (counterexample): on `movedThenStill`, whose final frame pair has
exactly zero difference, the Ms. Pac-Man copy of `enough_l2_movement` rejects
(its zero-check fires) while the UCF-101 copy accepts — so the two copies are
not both equal to the specified zero-check algorithm. -/
theorem C2_counterexample :
    MsPacman.enough_l2_movement movedThenStill = false ∧
    UCF101.enough_l2_movement movedThenStill = true := by
  constructor <;>
    norm_num [MsPacman.enough_l2_movement, UCF101.enough_l2_movement,
      movedThenStill, frameA, frameB, l2walk, pairAt, sqDiffFrame, sqDiffRow,
      sqDiffChan, scaleFrame, MIN_L2_DIFF_PER_FRAME, List.replicate,
      List.zipWith]

/-- Claim C2 (amended): every sequence of identical frames is rejected by both
copies of `enough_l2_movement`, and the zero-difference early reject of the
last frame pair holds for the Ms. Pac-Man copy (the UCF-101 copy has no such
check, see the counterexample). -/
theorem C2_theorem :
    ∀ (f : Frame) (k : ℕ),
      MsPacman.enough_l2_movement (List.replicate k f) = false ∧
      UCF101.enough_l2_movement (List.replicate k f) = false ∧
      ∀ (fs : List Frame) (m : ℕ), fs.length = m + 2 →
        pairAt (fs.map scaleFrame) m = 0 →
        MsPacman.enough_l2_movement fs = false := by
  intro f k
  have hmap : (List.replicate k f).map scaleFrame = List.replicate k (scaleFrame f) :=
    List.map_replicate ..
  have hfalse : ∀ zc : Bool, ∀ m : ℕ, k = m + 2 →
      l2walk ((List.replicate k f).map scaleFrame) (m + 2) zc m 0 = false := by
    intro zc m hk
    rw [hmap]
    refine l2walk_zero _ _ _ (fun j => pairAt_replicate _ _ _) ?_ m
    have hpos : (0 : ℚ) < ((m + 2 : ℕ) : ℚ) := by exact_mod_cast Nat.succ_pos _
    have h25 : (0 : ℚ) < MIN_L2_DIFF_PER_FRAME := by norm_num [MIN_L2_DIFF_PER_FRAME]
    exact mul_pos h25 hpos
  refine ⟨?_, ?_, ?_⟩
  · unfold MsPacman.enough_l2_movement
    rcases hk : (List.replicate k f).length with _ | n
    · simp
    · cases n with
      | zero => simp
      | succ m =>
        simp only []
        have hk2 : k = m + 2 := by simpa using hk
        exact hfalse true m hk2
  · unfold UCF101.enough_l2_movement
    rcases hk : (List.replicate k f).length with _ | n
    · simp
    · cases n with
      | zero => simp
      | succ m =>
        simp only []
        have hk2 : k = m + 2 := by simpa using hk
        exact hfalse false m hk2
  · intro fs m hlen h0
    unfold MsPacman.enough_l2_movement
    simp only [hlen]
    exact l2walk_zc_last _ m h0

/-- Claim C2 (witness): the amended theorem applied to the concrete sequence
`movedThenStill`, whose last frame pair is unchanged. -/
theorem C2_witness : MsPacman.enough_l2_movement movedThenStill = false :=
  (C2_theorem frameA 0).2.2 movedThenStill 1 rfl
    (by norm_num [movedThenStill, frameA, frameB, pairAt, sqDiffFrame,
      sqDiffRow, sqDiffChan, scaleFrame, List.replicate, List.zipWith])

/-- Claim C8 (counterexample): on the empty frame sequence the UCF-101 motion
filter rejects, while the spec's plain final-sum comparison accepts
(`0 ≥ 25.0 * 0`), so the stated equivalence fails for `n = 0`. -/
theorem C8_counterexample :
    UCF101.enough_l2_movement [] = false ∧ final_sum_test [] = true := by
  constructor
  · rfl
  · norm_num [final_sum_test, totalL2Diff, MIN_L2_DIFF_PER_FRAME]

/-- Claim C8 (amended): for every non-empty frame sequence, the UCF-101 copy
of `enough_l2_movement` accepts exactly when the total accumulated squared L2
difference over all consecutive pairs (after scaling by `1/127.5`) is at least
`25.0 * n` — the backward any-point test is equivalent to the final-sum
comparison because the running sum is monotone. -/
theorem C8_theorem (frames : List Frame) (h : frames ≠ []) :
    UCF101.enough_l2_movement frames = final_sum_test frames := by
  rcases hlen : frames.length with _ | n
  · exact absurd (List.length_eq_zero.mp hlen) h
  · cases n with
    | zero =>
      unfold UCF101.enough_l2_movement final_sum_test totalL2Diff
      simp [hlen, MIN_L2_DIFF_PER_FRAME]
    | succ m =>
      unfold UCF101.enough_l2_movement final_sum_test totalL2Diff
      simp only [hlen]
      have hiff := l2walk_true_iff (frames.map scaleFrame) (m + 2) m 0
      rw [zero_add] at hiff
      by_cases hP : MIN_L2_DIFF_PER_FRAME * ((m + 2 : ℕ) : ℚ) ≤
          ∑ j ∈ Finset.range (m + 1), pairAt (frames.map scaleFrame) j
      · rw [hiff.mpr hP, eq_comm, decide_eq_true_eq]
        push_cast at hP ⊢
        linarith
      · have hf : l2walk (frames.map scaleFrame) (m + 2) false m 0 = false := by
          cases hb : l2walk (frames.map scaleFrame) (m + 2) false m 0 with
          | false => rfl
          | true => exact absurd (hiff.mp hb) hP
        rw [hf, eq_comm, decide_eq_false_iff_not]
        intro hc
        refine hP ?_
        push_cast at hc ⊢
        linarith

/-- Claim C8 (witness): the amended equivalence applied to the concrete
non-empty sequence `movedThenStill`. -/
theorem C8_witness :
    UCF101.enough_l2_movement movedThenStill = final_sum_test movedThenStill :=
  C8_theorem movedThenStill (by simp [movedThenStill])

/-! ### Frame transformations and shape predicates -/

/-- `frame[oy:oy+ch, ox:ox+cw, :]`: the rectangular crop applied per frame in
both dataset loaders. -/
def cropFrame (ch cw oy ox : ℕ) (f : Frame) : Frame :=
  ((f.drop oy).take ch).map (fun row => (row.drop ox).take cw)

/-- `frame[:, ::-1, :]`: horizontal flip — reverse the width axis. -/
def flipFrame (f : Frame) : Frame := f.map List.reverse

/-- `frame / 255`: normalisation to scale `[0, 1]`. -/
def normFrame (f : Frame) : Frame :=
  f.map (fun row => row.map (fun p => p.map (fun v => v / 255)))

/-- Shape of one image row: `w` pixels of `c` channels each. -/
def rowShape (row : ImgRow) (w c : ℕ) : Prop :=
  row.length = w ∧ ∀ p ∈ row, p.length = c

/-- Shape `[h, w, c]` of one frame. -/
def frameShape (f : Frame) (h w c : ℕ) : Prop :=
  f.length = h ∧ ∀ row ∈ f, rowShape row w c

/-- Shape `[l, h, w, c]` of a frame sequence. -/
def seqShape (xs : List Frame) (l h w c : ℕ) : Prop :=
  xs.length = l ∧ ∀ f ∈ xs, frameShape f h w c

/-- Shape `[n, l, h, w, c]` of a batch of frame sequences. -/
def batchShape (b : List (List Frame)) (n l h w c : ℕ) : Prop :=
  b.length = n ∧ ∀ x ∈ b, seqShape x l h w c

/-- `v` occurs as a value of frame `f`. -/
def memFrame (v : ℚ) (f : Frame) : Prop := ∃ row ∈ f, ∃ p ∈ row, v ∈ p

/-- `v` occurs somewhere in a frame sequence. -/
def memSeq (v : ℚ) (xs : List Frame) : Prop := ∃ f ∈ xs, memFrame v f

/-- `v` occurs somewhere in a batch. -/
def memBatch (v : ℚ) (b : List (List Frame)) : Prop := ∃ x ∈ b, memSeq v x

/-- A stored uint8 frame: every value lies in `[0, 255]`. -/
def uint8Frame (f : Frame) : Prop := ∀ v, memFrame v f → 0 ≤ v ∧ v ≤ 255

lemma frameShape_cropFrame (f : Frame) (h w c ch cw oy ox : ℕ)
    (hf : frameShape f h w c) (hy : oy + ch ≤ h) (hx : ox + cw ≤ w) :
    frameShape (cropFrame ch cw oy ox f) ch cw c := by
  obtain ⟨hlen, hrows⟩ := hf
  constructor
  · simp only [cropFrame, List.length_map, List.length_take, List.length_drop, hlen]
    omega
  · intro row hrow
    simp only [cropFrame, List.mem_map] at hrow
    obtain ⟨row0, hrow0, rfl⟩ := hrow
    have hmem : row0 ∈ f := List.mem_of_mem_drop (List.mem_of_mem_take hrow0)
    obtain ⟨hrl, hrp⟩ := hrows row0 hmem
    constructor
    · simp only [List.length_take, List.length_drop, hrl]
      omega
    · intro p hp
      exact hrp p (List.mem_of_mem_drop (List.mem_of_mem_take hp))

lemma frameShape_flipFrame (f : Frame) (h w c : ℕ) (hf : frameShape f h w c) :
    frameShape (flipFrame f) h w c := by
  obtain ⟨hlen, hrows⟩ := hf
  refine ⟨by simp [flipFrame, hlen], ?_⟩
  intro row hrow
  simp only [flipFrame, List.mem_map] at hrow
  obtain ⟨row0, hrow0, rfl⟩ := hrow
  obtain ⟨hrl, hrp⟩ := hrows row0 hrow0
  exact ⟨by simp [hrl], fun p hp => hrp p (List.mem_reverse.mp hp)⟩

lemma frameShape_normFrame (f : Frame) (h w c : ℕ) (hf : frameShape f h w c) :
    frameShape (normFrame f) h w c := by
  obtain ⟨hlen, hrows⟩ := hf
  refine ⟨by simp [normFrame, hlen], ?_⟩
  intro row hrow
  simp only [normFrame, List.mem_map] at hrow
  obtain ⟨row0, hrow0, rfl⟩ := hrow
  obtain ⟨hrl, hrp⟩ := hrows row0 hrow0
  refine ⟨by simp [hrl], ?_⟩
  intro p hp
  simp only [List.mem_map] at hp
  obtain ⟨p0, hp0, rfl⟩ := hp
  simp [hrp p0 hp0]

lemma memFrame_cropFrame {v : ℚ} {f : Frame} {ch cw oy ox : ℕ}
    (hv : memFrame v (cropFrame ch cw oy ox f)) : memFrame v f := by
  obtain ⟨row, hrow, p, hp, hvp⟩ := hv
  simp only [cropFrame, List.mem_map] at hrow
  obtain ⟨row0, hrow0, rfl⟩ := hrow
  exact ⟨row0, List.mem_of_mem_drop (List.mem_of_mem_take hrow0),
    p, List.mem_of_mem_drop (List.mem_of_mem_take hp), hvp⟩

lemma memFrame_flipFrame {v : ℚ} {f : Frame}
    (hv : memFrame v (flipFrame f)) : memFrame v f := by
  obtain ⟨row, hrow, p, hp, hvp⟩ := hv
  simp only [flipFrame, List.mem_map] at hrow
  obtain ⟨row0, hrow0, rfl⟩ := hrow
  exact ⟨row0, hrow0, p, List.mem_reverse.mp hp, hvp⟩

lemma memFrame_normFrame {v : ℚ} {f : Frame}
    (hv : memFrame v (normFrame f)) : ∃ u, memFrame u f ∧ v = u / 255 := by
  obtain ⟨row, hrow, p, hp, hvp⟩ := hv
  simp only [normFrame, List.mem_map] at hrow
  obtain ⟨row0, hrow0, rfl⟩ := hrow
  simp only [List.mem_map] at hp
  obtain ⟨p0, hp0, rfl⟩ := hp
  simp only [List.mem_map] at hvp
  obtain ⟨u, hu, rfl⟩ := hvp
  exact ⟨u, ⟨row0, hrow0, p0, hp0, hu⟩, rfl⟩

/-! ### The Ms. Pac-Man dataset (`ms_pacman.py`) -/

namespace MsPacman

/-- Source frame height (210). -/
def FRAME_HEIGHT : ℕ := 210

/-- Source frame width (160). -/
def FRAME_WIDTH : ℕ := 160

/-- Channel depth (3). -/
def FRAME_CHANNELS : ℕ := 3

/-- The y-pixel where the HUD at the bottom starts (172). -/
def HUD_Y : ℕ := 172

/-- Retry bound of the crop/motion rejection loop (100). -/
def MAX_TRIES : ℕ := 100

/-- The dataset fields of `MsPacmanBaseDataset` relevant to `get_batch` and
`reset`: the catalog of frame sequences (`self._data`, with each stored frame
given directly instead of a file path) and the configuration flags.  The
class keeps no row cursor and no index permutation. -/
structure State where
  data : List (List Frame)
  input_seq_length : ℕ
  target_seq_length : ℕ
  crop_size : Option (ℕ × ℕ)
  repetitions_per_epoche : ℕ
  skip_less_movement : Bool
  random_flip : Bool

/-- `self._true_dataset_size = len(data)`. -/
def true_dataset_size (s : State) : ℕ := s.data.length

/-- The externally reported (virtually inflated) dataset size. -/
def dataset_size (s : State) : ℕ := true_dataset_size s * s.repetitions_per_epoche

/-- Height of one output frame: crop height when cropping, else the native
frame height. -/
def dimH (s : State) : ℕ :=
  match s.crop_size with
  | none => FRAME_HEIGHT
  | some cs => cs.1

/-- Width of one output frame. -/
def dimW (s : State) : ℕ :=
  match s.crop_size with
  | none => FRAME_WIDTH
  | some cs => cs.2

/-- `self.input_shape` as set by the constructor. -/
def input_shape (s : State) : List ℕ :=
  match s.crop_size with
  | none => [s.input_seq_length, FRAME_HEIGHT, FRAME_WIDTH, FRAME_CHANNELS]
  | some cs => [s.input_seq_length, cs.1, cs.2, FRAME_CHANNELS]

/-- `self.target_shape` as set by the constructor. -/
def target_shape (s : State) : List ℕ :=
  match s.crop_size with
  | none => [s.target_seq_length, FRAME_HEIGHT, FRAME_WIDTH, FRAME_CHANNELS]
  | some cs => [s.target_seq_length, cs.1, cs.2, FRAME_CHANNELS]

lemma input_shape_dims_pac (s : State) :
    input_shape s = [s.input_seq_length, dimH s, dimW s, FRAME_CHANNELS] := by
  rcases h : s.crop_size with _ | cs <;> simp [input_shape, dimH, dimW, h]

lemma target_shape_dims_pac (s : State) :
    target_shape s = [s.target_seq_length, dimH s, dimW s, FRAME_CHANNELS] := by
  rcases h : s.crop_size with _ | cs <;> simp [target_shape, dimH, dimW, h]

/-- The random draws one batch item consumes: the chosen sequence
(`np.random.choice`), the start frame (`random.randint`), the flip coin
(`random.random() > 0.5`) and, per retry attempt, the crop offsets
`(offset_y, offset_x)` (`random.randint` twice). -/
structure ItemRand where
  seqIdx : ℕ
  startIdx : ℕ
  coin : Bool
  offs : ℕ → ℕ × ℕ

/-- The offsets used on a given retry attempt: `(0, 0)` without cropping,
else the freshly drawn pair of that attempt. -/
def drawOffsets (s : State) (r : ItemRand) (retry : ℕ) : ℕ × ℕ :=
  match s.crop_size with
  | none => (0, 0)
  | some _ => r.offs retry

/-- The in-loop HUD rule: when cropping and the crop region reaches below
`HUD_Y`, force the flip flag off; otherwise keep it. -/
def hudDisable (s : State) (oy : ℕ) (flip : Bool) : Bool :=
  match s.crop_size with
  | none => flip
  | some cs => if HUD_Y < oy + cs.1 then false else flip

/-- Crop a frame when cropping is configured, else leave it unchanged. -/
def applyCrop (s : State) (oy ox : ℕ) (f : Frame) : Frame :=
  match s.crop_size with
  | none => f
  | some cs => cropFrame cs.1 cs.2 oy ox f

/-- One frame as written into the batch: crop, then flip when the flip flag
is on (`frame[:,::-1,:] if do_flip else frame`). -/
def render (s : State) (oy ox : ℕ) (flip : Bool) (f : Frame) : Frame :=
  if flip then flipFrame (applyCrop s oy ox f) else applyCrop s oy ox f

/-- The input window as written into `batch_inputs[batch]` on one attempt. -/
def renderedInputs (s : State) (inF : List Frame) (oy ox : ℕ) (flip : Bool) :
    List Frame :=
  inF.map (render s oy ox flip)

/-- Whether the motion-filter rejection test runs on a given attempt:
only with cropping, with `skip_less_movement`, and never on the final
allowed attempt (`retry != MAX_TRIES - 1`). -/
def motionTestActive (s : State) (retry : ℕ) : Bool :=
  s.crop_size.isSome && s.skip_less_movement && decide (retry ≠ MAX_TRIES - 1)

/-- The flip flag as it stands right before attempt `j` draws its offsets:
the initial coin (only with `random_flip`), weakened by the HUD rule of every
earlier attempt — the source never re-enables `do_flip` inside the loop. -/
def preFlip (s : State) (r : ItemRand) : ℕ → Bool
  | 0 => s.random_flip && r.coin
  | j + 1 => hudDisable s (drawOffsets s r j).1 (preFlip s r j)

/-- The flip flag in effect while attempt `j` writes its frames (after its
own HUD check). -/
def flipAt (s : State) (r : ItemRand) (j : ℕ) : Bool := preFlip s r (j + 1)

/-- Whether attempt `j` is accepted: either the motion test is not run on
this attempt, or the rendered input window has enough movement. -/
def acceptedAt (s : State) (inF : List Frame) (r : ItemRand) (j : ℕ) : Bool :=
  !motionTestActive s j ||
    enough_l2_movement
      (renderedInputs s inF (drawOffsets s r j).1 (drawOffsets s r j).2 (flipAt s r j))

/-- The retry loop `for retry in range(MAX_TRIES)` of `get_batch`, with the
fuel counting the remaining attempts.  Returns the accepted attempt index,
its offsets, and the flip flag it used. -/
def retryAux (s : State) (inF : List Frame) (r : ItemRand) :
    ℕ → ℕ → Bool → ℕ × ℕ × ℕ × Bool
  | 0, retry, flip =>
    (retry, (drawOffsets s r retry).1, (drawOffsets s r retry).2, flip)
  | fuel + 1, retry, flip =>
    let oy := (drawOffsets s r retry).1
    let ox := (drawOffsets s r retry).2
    let flip2 := hudDisable s oy flip
    if !motionTestActive s retry ||
        enough_l2_movement (renderedInputs s inF oy ox flip2) then
      (retry, oy, ox, flip2)
    else
      retryAux s inF r fuel (retry + 1) flip2

/-- The retry loop started as in the source: `MAX_TRIES` attempts, attempt
counter 0, flip flag drawn before the loop. -/
def retryLoop (s : State) (inF : List Frame) (r : ItemRand) : ℕ × ℕ × ℕ × Bool :=
  retryAux s inF r MAX_TRIES 0 (s.random_flip && r.coin)

lemma motionTestActive_last (s : State) :
    motionTestActive s (MAX_TRIES - 1) = false := by
  simp [motionTestActive]

lemma acceptedAt_last (s : State) (inF : List Frame) (r : ItemRand) :
    acceptedAt s inF r (MAX_TRIES - 1) = true := by
  simp [acceptedAt, motionTestActive_last]

lemma acceptedAt_exists (s : State) (inF : List Frame) (r : ItemRand) :
    ∃ j, acceptedAt s inF r j = true :=
  ⟨MAX_TRIES - 1, acceptedAt_last s inF r⟩

/-- The attempt index the loop accepts: the first passing attempt
(the final attempt always passes since its test is skipped). -/
def acceptIdx (s : State) (inF : List Frame) (r : ItemRand) : ℕ :=
  Nat.find (acceptedAt_exists s inF r)

lemma retryAux_step (s : State) (inF : List Frame) (r : ItemRand)
    (fuel retry : ℕ) :
    retryAux s inF r (fuel + 1) retry (preFlip s r retry) =
      if acceptedAt s inF r retry then
        (retry, (drawOffsets s r retry).1, (drawOffsets s r retry).2, flipAt s r retry)
      else retryAux s inF r fuel (retry + 1) (preFlip s r (retry + 1)) := rfl

lemma retryAux_first (s : State) (inF : List Frame) (r : ItemRand) :
    ∀ (fuel retry a : ℕ), retry ≤ a → a < retry + fuel →
      (∀ j, retry ≤ j → j < a → acceptedAt s inF r j = false) →
      acceptedAt s inF r a = true →
      retryAux s inF r fuel retry (preFlip s r retry) =
        (a, (drawOffsets s r a).1, (drawOffsets s r a).2, flipAt s r a) := by
  intro fuel
  induction fuel with
  | zero =>
    intro retry a h1 h2 _ _
    omega
  | succ fuel ih =>
    intro retry a h1 h2 hbefore hacc
    rw [retryAux_step]
    by_cases hra : retry = a
    · subst hra
      rw [hacc]
      simp
    · have hlt : retry < a := lt_of_le_of_ne h1 hra
      rw [hbefore retry le_rfl hlt]
      simp only [Bool.false_eq_true, if_false]
      exact ih (retry + 1) a hlt (by omega)
        (fun j hj1 hj2 => hbefore j (by omega) hj2) hacc

/-- The loop accepts exactly the first accepted attempt and returns that
attempt's offsets and flip flag. -/
lemma retryLoop_spec (s : State) (inF : List Frame) (r : ItemRand) :
    retryLoop s inF r =
      (acceptIdx s inF r, (drawOffsets s r (acceptIdx s inF r)).1,
       (drawOffsets s r (acceptIdx s inF r)).2, flipAt s r (acceptIdx s inF r)) := by
  have hspec : acceptedAt s inF r (acceptIdx s inF r) = true :=
    Nat.find_spec (acceptedAt_exists s inF r)
  have hle : acceptIdx s inF r ≤ MAX_TRIES - 1 :=
    Nat.find_min' _ (acceptedAt_last s inF r)
  have hmin : ∀ j, j < acceptIdx s inF r → acceptedAt s inF r j = false := by
    intro j hj
    have h := Nat.find_min (acceptedAt_exists s inF r) hj
    cases hb : acceptedAt s inF r j
    · rfl
    · exact absurd hb h
  have h100 : acceptIdx s inF r < 0 + MAX_TRIES := by
    have : MAX_TRIES = 100 := rfl
    omega
  have h0 : (s.random_flip && r.coin) = preFlip s r 0 := rfl
  unfold retryLoop
  rw [h0]
  exact retryAux_first s inF r MAX_TRIES 0 (acceptIdx s inF r) (Nat.zero_le _)
    h100 (fun j _ hj2 => hmin j hj2) hspec

/-- One batch item of `MsPacmanBaseDataset.get_batch`: pre-load the input
window, run the retry loop, render inputs and (lazily decoded) targets with
the accepted offsets and flip flag, then normalise to `[0, 1]`. -/
def getItem (s : State) (r : ItemRand) : List Frame × List Frame :=
  let current_seq := s.data.getD r.seqIdx []
  let input_frames := (current_seq.drop r.startIdx).take s.input_seq_length
  let res := retryLoop s input_frames r
  let inputs := renderedInputs s input_frames res.2.1 res.2.2.1 res.2.2.2
  let target_frames :=
    (current_seq.drop (r.startIdx + s.input_seq_length)).take s.target_seq_length
  let targets := target_frames.map (render s res.2.1 res.2.2.1 res.2.2.2)
  (inputs.map normFrame, targets.map normFrame)

/-- `MsPacmanBaseDataset.get_batch`: every batch item is drawn independently
from its own oracle record; the method writes no dataset field, so the state
is returned unchanged. -/
def get_batch (s : State) (rands : List ItemRand) :
    (List (List Frame) × List (List Frame)) × State :=
  ((rands.map (fun r => (getItem s r).1), rands.map (fun r => (getItem s r).2)), s)

/-- `MsPacmanBaseDataset.reset` (lines 246-248): `pass`. -/
def reset (s : State) : State := s

end MsPacman

/-! ### The UCF-101 evaluation dataset (`ucf101.py`) -/

namespace UCF101

/-- Retry bound of the crop/motion rejection loop (100). -/
def MAX_TRIES : ℕ := 100

/-- The fields of `UCF101BaseEvaluationDataset` relevant to `get_batch` and
`reset`: the serialized sequences (`self._file_name_list`, with the decoded
frames given directly instead of file paths), the index permutation
(`self._indices`), the row cursor, the true and inflated sizes, the image
dimensions (`self._data_img_size`) and the configuration flags. -/
structure State where
  fileData : List (List Frame)
  indices : List ℕ
  row : ℕ
  real_dataset_size : ℕ
  size : ℕ
  serialized_sequence_length : ℕ
  input_seq_length : ℕ
  target_seq_length : ℕ
  img_h : ℕ
  img_w : ℕ
  img_c : ℕ
  crop_size : Option (ℕ × ℕ)
  double_with_flipped : Bool
  skip_less_movement : Bool

/-- Height of one output frame: crop height when cropping, else the scaled
image height. -/
def dimH (s : State) : ℕ :=
  match s.crop_size with
  | none => s.img_h
  | some cs => cs.1

/-- Width of one output frame. -/
def dimW (s : State) : ℕ :=
  match s.crop_size with
  | none => s.img_w
  | some cs => cs.2

/-- `self.input_shape` as set by the constructor. -/
def input_shape (s : State) : List ℕ :=
  match s.crop_size with
  | none => [s.input_seq_length, s.img_h, s.img_w, s.img_c]
  | some cs => [s.input_seq_length, cs.1, cs.2, s.img_c]

/-- `self.target_shape` as set by the constructor. -/
def target_shape (s : State) : List ℕ :=
  match s.crop_size with
  | none => [s.target_seq_length, s.img_h, s.img_w, s.img_c]
  | some cs => [s.target_seq_length, cs.1, cs.2, s.img_c]

lemma input_shape_dims_ucf (s : State) :
    input_shape s = [s.input_seq_length, dimH s, dimW s, s.img_c] := by
  rcases h : s.crop_size with _ | cs <;> simp [input_shape, dimH, dimW, h]

lemma target_shape_dims_ucf (s : State) :
    target_shape s = [s.target_seq_length, dimH s, dimW s, s.img_c] := by
  rcases h : s.crop_size with _ | cs <;> simp [target_shape, dimH, dimW, h]

/-- The random draws one batch item consumes: the start frame of the
sequence slice (`random.randint`) and the crop offsets `(offset_y, offset_x)`
drawn on each retry attempt. -/
structure ItemRand where
  start_t : ℕ
  offs : ℕ → ℕ × ℕ

/-- The random draws one `get_batch` call can consume: the reshuffled
permutation (should `reset` run) and each item's draws. -/
structure BatchRand where
  shuffled : List ℕ
  items : ℕ → ItemRand

/-- `UCF101BaseEvaluationDataset.reset` (lines 470-473): zero the row and
reshuffle the permutation in place (the shuffle outcome is an oracle). -/
def reset (s : State) (shuffled : List ℕ) : State :=
  { s with row := 0, indices := shuffled }

/-- The circular index window of `get_batch` (lines 399-404):
`indices[start:] + indices[:end]` on wraparound, else `indices[start:end]`. -/
def ind_range (indices : List ℕ) (start e : ℕ) : List ℕ :=
  if e < start then indices.drop start ++ indices.take e
  else (indices.drop start).take (e - start)

/-- `current[:, oy:oy+ch, ox:ox+cw, :]`: the same crop applied to every frame
of the slice. -/
def cropSeq (ch cw oy ox : ℕ) (cur : List Frame) : List Frame :=
  cur.map (cropFrame ch cw oy ox)

/-- The offset-selection retry loop (lines 430-444): draw offsets, crop, and
— with `skip_less_movement` — retest until the cropped input window moves
enough; the offsets of the first passing attempt are kept, and when all
`MAX_TRIES` attempts fail the last attempt's offsets are kept anyway. -/
def chooseOffset (s : State) (cur : List Frame) (r : ItemRand) (ch cw : ℕ) :
    ℕ → ℕ → ℕ × ℕ
  | 0, retry => r.offs retry
  | 1, retry => r.offs retry
  | fuel + 2, retry =>
    let oy := (r.offs retry).1
    let ox := (r.offs retry).2
    if s.skip_less_movement then
      if enough_l2_movement
          ((cropSeq ch cw oy ox cur).take s.input_seq_length) then
        (oy, ox)
      else chooseOffset s cur r ch cw (fuel + 1) (retry + 1)
    else (oy, ox)

/-- The flip test of `get_batch` (lines 451-452):
`virtual_row < data_size and virtual_row % 2 == 0
 or virtual_row >= data_size and virtual_row % 2 == 1`. -/
def flipCond (s : State) (virtual_row : ℕ) : Bool :=
  (decide (virtual_row < s.real_dataset_size) && decide (virtual_row % 2 = 0)) ||
  (decide (s.real_dataset_size ≤ virtual_row) && decide (virtual_row % 2 = 1))

/-- One item up to (but excluding) the flip stage: read the serialized
sequence, slice `total_length` frames starting at the random `start_t`, and
crop via the retry loop when cropping is configured. -/
def croppedItem (s : State) (fi : ℕ) (r : ItemRand) : List Frame :=
  let current0 := s.fileData.getD fi []
  let total := s.input_seq_length + s.target_seq_length
  let current1 := (current0.drop r.start_t).take total
  match s.crop_size with
  | none => current1
  | some cs =>
    let off := chooseOffset s current1 r cs.1 cs.2 MAX_TRIES 0
    cropSeq cs.1 cs.2 off.1 off.2 current1

/-- One full item of `get_batch`: crop, flip per the doubling parity rule,
then split into the input and target windows (`current[0:inputs_length]`
and `current[inputs_length:inputs_length+total_length]`). -/
def processItem (s : State) (fi virtual_row : ℕ) (r : ItemRand) :
    List Frame × List Frame :=
  let cur2 := croppedItem s fi r
  let cur3 := if s.double_with_flipped && flipCond s virtual_row then
      cur2.map flipFrame
    else cur2
  let total := s.input_seq_length + s.target_seq_length
  (cur3.take s.input_seq_length, (cur3.drop s.input_seq_length).take total)

/-- `UCF101BaseEvaluationDataset.get_batch` (lines 389-468): reset on
virtual-epoch wraparound, compute the circular index window, check the
batch-size assertion (`none` models the `AssertionError`), process each item
at its virtual row, normalise to `[0, 1]`, and advance the row cursor. -/
def get_batch (s : State) (batch_size : ℕ) (br : BatchRand) :
    Option ((List (List Frame) × List (List Frame)) × State) :=
  let s1 := if s.size ≤ s.row + batch_size then reset s br.shuffled else s
  let start := s1.row % s1.real_dataset_size
  let e := (start + batch_size) % s1.real_dataset_size
  let inds := ind_range s1.indices start e
  if inds.length = batch_size then
    let items := (List.range batch_size).map
      (fun i => processItem s1 (inds.getD i 0) (s1.row + i) (br.items i))
    some (((items.map (fun it => it.1.map normFrame)),
           (items.map (fun it => it.2.map normFrame))),
          { s1 with row := s1.row + batch_size })
  else
    none

end UCF101

/-! ### Claims about the Ms. Pac-Man retry loop (C3, C6, C7) -/

/-- Claim C3: with cropping and `skip_less_movement` active the retry loop
accepts an attempt index of at most `MAX_TRIES - 1` (so it executes at most
100 attempts); every attempt before the accepted one failed its motion test
and every attempt except the final allowed one is accepted exactly when the
motion test passes; on the final allowed attempt the motion test is inactive
and the attempt is accepted unconditionally, so exhaustion never errors. -/
theorem C3_theorem (s : MsPacman.State) (inF : List Frame)
    (r : MsPacman.ItemRand) (hc : s.crop_size.isSome = true)
    (hs : s.skip_less_movement = true) :
    (MsPacman.retryLoop s inF r).1 = MsPacman.acceptIdx s inF r ∧
    MsPacman.acceptIdx s inF r ≤ MsPacman.MAX_TRIES - 1 ∧
    (∀ j, j < MsPacman.acceptIdx s inF r →
      MsPacman.acceptedAt s inF r j = false) ∧
    MsPacman.acceptedAt s inF r (MsPacman.acceptIdx s inF r) = true ∧
    (∀ j, j < MsPacman.MAX_TRIES - 1 →
      MsPacman.acceptedAt s inF r j =
        MsPacman.enough_l2_movement (MsPacman.renderedInputs s inF
          (MsPacman.drawOffsets s r j).1 (MsPacman.drawOffsets s r j).2
          (MsPacman.flipAt s r j))) ∧
    MsPacman.motionTestActive s (MsPacman.MAX_TRIES - 1) = false ∧
    MsPacman.acceptedAt s inF r (MsPacman.MAX_TRIES - 1) = true := by
  refine ⟨?_, ?_, ?_, ?_, ?_, MsPacman.motionTestActive_last s,
    MsPacman.acceptedAt_last s inF r⟩
  · rw [MsPacman.retryLoop_spec]
  · exact Nat.find_min' _ (MsPacman.acceptedAt_last s inF r)
  · intro j hj
    have h := Nat.find_min (MsPacman.acceptedAt_exists s inF r) hj
    cases hb : MsPacman.acceptedAt s inF r j
    · rfl
    · exact absurd hb h
  · exact Nat.find_spec (MsPacman.acceptedAt_exists s inF r)
  · intro j hj
    have hne : j ≠ MsPacman.MAX_TRIES - 1 := by omega
    simp [MsPacman.acceptedAt, MsPacman.motionTestActive, hc, hs, hne]

/-- Concrete dataset configuration with cropping and motion filtering. -/
def sC3w : MsPacman.State :=
  { data := [], input_seq_length := 0, target_seq_length := 0,
    crop_size := some (1, 1), repetitions_per_epoche := 1,
    skip_less_movement := true, random_flip := false }

/-- Concrete per-item random draws. -/
def rC3w : MsPacman.ItemRand := ⟨0, 0, false, fun _ => (0, 0)⟩

/-- Claim C3 (witness): the bound on the accepted attempt index at a concrete
configuration. -/
theorem C3_witness :
    MsPacman.acceptIdx sC3w [] rC3w ≤ MsPacman.MAX_TRIES - 1 :=
  (C3_theorem sC3w [] rC3w rfl rfl).2.1

/-- Claim C6: with cropping active, on every retry attempt whose freshly
drawn offset makes the crop reach below `HUD_Y`, the flip flag in effect for
that attempt is off, so the frames written on that attempt are the cropped,
unflipped ones; the check is applied to each attempt's own offset. -/
theorem C6_theorem (s : MsPacman.State) (r : MsPacman.ItemRand) (cs : ℕ × ℕ)
    (hc : s.crop_size = some cs) :
    ∀ j, MsPacman.HUD_Y < (r.offs j).1 + cs.1 →
      MsPacman.flipAt s r j = false ∧
      ∀ inF, MsPacman.renderedInputs s inF (MsPacman.drawOffsets s r j).1
          (MsPacman.drawOffsets s r j).2 (MsPacman.flipAt s r j) =
        inF.map (MsPacman.applyCrop s (MsPacman.drawOffsets s r j).1
          (MsPacman.drawOffsets s r j).2) := by
  intro j hj
  have hoff : MsPacman.drawOffsets s r j = r.offs j := by
    simp [MsPacman.drawOffsets, hc]
  have hflip : MsPacman.flipAt s r j = false := by
    show MsPacman.preFlip s r (j + 1) = false
    simp [MsPacman.preFlip, MsPacman.hudDisable, hc, hoff, hj]
  refine ⟨hflip, ?_⟩
  intro inF
  rw [hflip]
  simp [MsPacman.renderedInputs, MsPacman.render]

/-- Concrete configuration for the HUD rule. -/
def sC6w : MsPacman.State :=
  { data := [], input_seq_length := 0, target_seq_length := 0,
    crop_size := some (1, 1), repetitions_per_epoche := 1,
    skip_less_movement := true, random_flip := true }

/-- Concrete draws whose crop offset `oy = 200` reaches below the HUD line. -/
def rC6w : MsPacman.ItemRand := ⟨0, 0, true, fun _ => (200, 0)⟩

/-- Claim C6 (witness): at a concrete HUD-overlapping offset the flip flag of
attempt 0 is off even though the coin and `random_flip` are on. -/
theorem C6_witness : MsPacman.flipAt sC6w rC6w 0 = false :=
  (C6_theorem sC6w rC6w (1, 1) rfl 0 (by decide)).1

/-- Claim C7: the motion-filter rejection test runs on an attempt exactly
when cropping is configured, `skip_less_movement` is on, and the attempt is
not the final allowed one; when `skip_less_movement` is off or cropping is
not configured, the test is inactive on every attempt and the retry loop
accepts its very first candidate. -/
theorem C7_theorem (s : MsPacman.State) :
    (∀ retry, MsPacman.motionTestActive s retry = true ↔
      (s.crop_size.isSome = true ∧ s.skip_less_movement = true ∧
       retry ≠ MsPacman.MAX_TRIES - 1)) ∧
    (s.skip_less_movement = false ∨ s.crop_size = none →
      (∀ retry, MsPacman.motionTestActive s retry = false) ∧
      ∀ inF r, (MsPacman.retryLoop s inF r).1 = 0 ∧
        MsPacman.acceptedAt s inF r 0 = true) := by
  constructor
  · intro retry
    simp [MsPacman.motionTestActive, Bool.and_eq_true, decide_eq_true_eq,
      and_assoc]
  · intro hdis
    have hmt : ∀ retry, MsPacman.motionTestActive s retry = false := by
      intro retry
      rcases hdis with h | h <;> simp [MsPacman.motionTestActive, h]
    refine ⟨hmt, ?_⟩
    intro inF r
    have hacc0 : MsPacman.acceptedAt s inF r 0 = true := by
      simp [MsPacman.acceptedAt, hmt 0]
    have hidx : MsPacman.acceptIdx s inF r = 0 :=
      (Nat.find_eq_zero (MsPacman.acceptedAt_exists s inF r)).mpr hacc0
    refine ⟨?_, hacc0⟩
    rw [MsPacman.retryLoop_spec, hidx]

/-- Concrete configuration without cropping. -/
def sC7w : MsPacman.State :=
  { data := [], input_seq_length := 0, target_seq_length := 0,
    crop_size := none, repetitions_per_epoche := 1,
    skip_less_movement := true, random_flip := false }

/-- Concrete per-item draws for the C7 witness. -/
def rC7w : MsPacman.ItemRand := ⟨0, 0, false, fun _ => (0, 0)⟩

/-- Claim C7 (witness): with `crop_size = None` (and `skip_less_movement`
still on), the loop accepts the first candidate. -/
theorem C7_witness : (MsPacman.retryLoop sC7w [] rC7w).1 = 0 :=
  (((C7_theorem sC7w).2 (Or.inr rfl)).2 [] rC7w).1

/-! ### Claim C4: the circular index window -/

lemma ind_range_length (indices : List ℕ) (N r b : ℕ)
    (hlen : indices.length = N) (hN : 0 < N) (hb : 0 < b) (hbN : b < N) :
    (UCF101.ind_range indices (r % N) ((r % N + b) % N)).length = b := by
  have hsN : r % N < N := Nat.mod_lt _ hN
  by_cases hcase : r % N + b < N
  · have heq : (r % N + b) % N = r % N + b := Nat.mod_eq_of_lt hcase
    rw [heq, UCF101.ind_range, if_neg (by omega)]
    simp only [List.length_take, List.length_drop, hlen]
    omega
  · have heq : (r % N + b) % N = r % N + b - N := by
      rw [Nat.mod_eq_sub_mod (by omega), Nat.mod_eq_of_lt (by omega)]
    rw [heq, UCF101.ind_range, if_pos (by omega)]
    simp only [List.length_append, List.length_take, List.length_drop, hlen]
    omega

/-- Claim C4: for row cursor `r`, true size `N > 0` and permutation
`indices`, with `start = r % N` and `end = (start + batch_size) % N`, the
index window wraps by concatenating tail and head exactly when
`start > end`; for every `0 < batch_size < N` the window's length is exactly
`batch_size`, and on a state whose cursor will not trigger a reset the
batch-size assertion of `get_batch` never fires (it does not return `none`). -/
theorem C4_theorem (indices : List ℕ) (N r batch_size : ℕ)
    (hlen : indices.length = N) (hN : 0 < N) :
    ((r % N + batch_size) % N < r % N →
      UCF101.ind_range indices (r % N) ((r % N + batch_size) % N) =
        indices.drop (r % N) ++ indices.take ((r % N + batch_size) % N)) ∧
    (r % N ≤ (r % N + batch_size) % N →
      UCF101.ind_range indices (r % N) ((r % N + batch_size) % N) =
        (indices.drop (r % N)).take ((r % N + batch_size) % N - r % N)) ∧
    (0 < batch_size → batch_size < N →
      (UCF101.ind_range indices (r % N) ((r % N + batch_size) % N)).length =
        batch_size) ∧
    (∀ (s : UCF101.State) (br : UCF101.BatchRand),
      s.indices = indices → s.real_dataset_size = N → s.row = r →
      s.row + batch_size < s.size → 0 < batch_size → batch_size < N →
      UCF101.get_batch s batch_size br ≠ none) := by
  refine ⟨?_, ?_, ?_, ?_⟩
  · intro h
    rw [UCF101.ind_range, if_pos h]
  · intro h
    rw [UCF101.ind_range, if_neg (not_lt.mpr h)]
  · intro hb hbN
    exact ind_range_length indices N r batch_size hlen hN hb hbN
  · intro s br hi hNs hr hrow hb hbN
    have hlen2 : (UCF101.ind_range s.indices (s.row % s.real_dataset_size)
        ((s.row % s.real_dataset_size + batch_size) % s.real_dataset_size)).length =
        batch_size := by
      rw [hi, hNs, hr]
      exact ind_range_length indices N r batch_size hlen hN hb hbN
    simp only [UCF101.get_batch]
    rw [if_neg (not_le.mpr hrow)]
    rw [if_pos hlen2]
    exact Option.some_ne_none _

/-- Claim C4 (witness): concrete wraparound window — `indices = [0, 1, 2]`,
`N = 3`, `row = 2`, `batch_size = 2` gives the two-element window
`[2] ++ [0]`. -/
theorem C4_witness :
    (UCF101.ind_range [0, 1, 2] (2 % 3) ((2 % 3 + 2) % 3)).length = 2 :=
  (C4_theorem [0, 1, 2] 3 2 2 rfl (by decide)).2.2.1 (by decide) (by decide)

/-! ### Claim C5: the flip-doubling parity rule -/

/-- A 1×2×1 frame with pixel values 1, 2. -/
def frameC : Frame := [[[(1 : ℚ)], [2]]]

/-- A 1×2×1 frame with pixel values 3, 4. -/
def frameD : Frame := [[[(3 : ℚ)], [4]]]

/-- Concrete evaluation state: 5 files of two 1×2×1 frames each,
`double_with_flipped` on, no cropping. -/
def sC5 : UCF101.State :=
  { fileData := List.replicate 5 [frameC, frameD]
    indices := [0, 1, 2, 3, 4], row := 0, real_dataset_size := 5, size := 10,
    serialized_sequence_length := 2, input_seq_length := 1,
    target_seq_length := 1, img_h := 1, img_w := 2, img_c := 1,
    crop_size := none, double_with_flipped := true,
    skip_less_movement := false }

/-- Concrete per-item draws for C5. -/
def rC5 : UCF101.ItemRand := ⟨0, fun _ => (0, 0)⟩

/-- Claim C5 (counterexample): with `N = 5`, `virtual_row = 2` (even, first
virtual half) the code flips — the produced item is the horizontally
reversed frame pair — whereas the claim says an even row in `[0, N)` is
unflipped. -/
theorem C5_counterexample :
    UCF101.flipCond sC5 2 = true ∧
    UCF101.processItem sC5 0 2 rC5 = ([[[[2], [1]]]], [[[[4], [3]]]]) := by
  constructor
  · rfl
  · rfl

/-- Claim C5 (amended): the flip decision is a deterministic function of
`virtual_row`: rows in `[0, N)` are flipped when even and unflipped when odd,
rows at or beyond `N` invert that parity (flipped when odd); with
`double_with_flipped` on, the processed item is the horizontally flipped
crop exactly when that parity condition holds (with `N = 5`, both
`virtual_row = 2` and `virtual_row = 7` flip). -/
theorem C5_theorem (s : UCF101.State) (vr : ℕ)
    (hd : s.double_with_flipped = true) :
    (vr < s.real_dataset_size →
      (UCF101.flipCond s vr = true ↔ vr % 2 = 0)) ∧
    (s.real_dataset_size ≤ vr →
      (UCF101.flipCond s vr = true ↔ vr % 2 = 1)) ∧
    ∀ (fi : ℕ) (r : UCF101.ItemRand),
      UCF101.processItem s fi vr r =
        ((if UCF101.flipCond s vr then
            (UCF101.croppedItem s fi r).map flipFrame
          else UCF101.croppedItem s fi r).take s.input_seq_length,
         ((if UCF101.flipCond s vr then
            (UCF101.croppedItem s fi r).map flipFrame
          else UCF101.croppedItem s fi r).drop s.input_seq_length).take
            (s.input_seq_length + s.target_seq_length)) := by
  refine ⟨?_, ?_, ?_⟩
  · intro h
    have h2 : ¬ s.real_dataset_size ≤ vr := by omega
    simp [UCF101.flipCond, h, h2]
  · intro h
    have h2 : ¬ vr < s.real_dataset_size := by omega
    simp [UCF101.flipCond, h, h2]
  · intro fi r
    simp only [UCF101.processItem, hd, Bool.true_and]

/-- Claim C5 (witness): the amended parity rule at `N = 5`,
`virtual_row = 7` (second half, odd): flipped. -/
theorem C5_witness : UCF101.flipCond sC5 7 = true :=
  ((C5_theorem sC5 7 rfl).2.1 (by decide)).mpr (by decide)

/-! ### Claim C9: crop windows stay in bounds -/

lemma getD_take_drop {α : Type _} (l : List α) (d : α) (a b i : ℕ)
    (hi : i < b) : ((l.drop a).take b).getD i d = l.getD (a + i) d := by
  rw [List.getD_eq_getElem?_getD, List.getD_eq_getElem?_getD,
    List.getElem?_take, if_pos hi, List.getElem?_drop]

lemma getD_map_nil (g : ImgRow → ImgRow) (hg : g [] = [])
    (l : List ImgRow) (i : ℕ) : (l.map g).getD i [] = g (l.getD i []) := by
  by_cases h : i < l.length
  · rw [List.getD_eq_getElem _ _ (by simpa using h),
      List.getD_eq_getElem _ _ h, List.getElem_map]
  · rw [List.getD_eq_default _ _ (by simpa using not_lt.mp h),
      List.getD_eq_default _ _ (not_lt.mp h), hg]

/-- Reading any entry of the crop window reads exactly the source entry at
the offset coordinates (and never anything else). -/
lemma cropFrame_getD (f : Frame) (ch cw oy ox i j : ℕ) (hi : i < ch)
    (hj : j < cw) :
    ((cropFrame ch cw oy ox f).getD i []).getD j [] =
      (f.getD (oy + i) []).getD (ox + j) [] := by
  unfold cropFrame
  rw [getD_map_nil _ (by simp), getD_take_drop _ _ _ _ _ hi,
    getD_take_drop _ _ _ _ _ hj]

/-- Claim C9: for a crop `(ch, cw)` strictly smaller than the source size
`(H, W)` and any offsets the sampler can draw (`oy ≤ H - ch`,
`ox ≤ W - cw`), every coordinate of the crop window lies inside
`[0, H) × [0, W)`; cropping every frame of a sequence of `H × W` frames
yields full `ch × cw` frames whose every entry is the source entry at the
corresponding in-bounds coordinates — no out-of-bounds read occurs. -/
theorem C9_theorem (H W ch cw oy ox : ℕ) (hch : ch < H) (hcw : cw < W)
    (hoy : oy ≤ H - ch) (hox : ox ≤ W - cw) :
    (∀ i, i < ch → oy + i < H) ∧ (∀ j, j < cw → ox + j < W) ∧
    ∀ (seq : List Frame) (c : ℕ), (∀ f ∈ seq, frameShape f H W c) →
      ∀ f ∈ seq, frameShape (cropFrame ch cw oy ox f) ch cw c ∧
        ∀ i, i < ch → ∀ j, j < cw →
          ((cropFrame ch cw oy ox f).getD i []).getD j [] =
            (f.getD (oy + i) []).getD (ox + j) [] := by
  refine ⟨fun i hi => by omega, fun j hj => by omega, ?_⟩
  intro seq c hseq f hf
  refine ⟨frameShape_cropFrame f H W c ch cw oy ox (hseq f hf)
    (by omega) (by omega), ?_⟩
  intro i hi j hj
  exact cropFrame_getD f ch cw oy ox i j hi hj

/-- A concrete 2×2×1 frame. -/
def frameE : Frame := [[[(10 : ℚ)], [11]], [[12], [13]]]

/-- Claim C9 (witness): the in-bounds crop fact at a concrete 2×2 frame with
a 1×1 crop at offset (1, 1). -/
theorem C9_witness :
    frameShape (cropFrame 1 1 1 1 frameE) 1 1 1 ∧
    ((cropFrame 1 1 1 1 frameE).getD 0 []).getD 0 [] =
      (frameE.getD 1 []).getD 1 [] := by
  have h := (C9_theorem 2 2 1 1 1 1 (by decide) (by decide) (by decide)
    (by decide)).2.2 [frameE] 1
    (by
      intro f hf
      simp only [List.mem_singleton] at hf
      subst hf
      refine ⟨rfl, ?_⟩
      intro row hrow
      simp only [frameE, List.mem_cons, List.not_mem_nil, or_false] at hrow
      rcases hrow with rfl | rfl <;>
        exact ⟨rfl, by intro p hp; simp_all; rcases hp with rfl | rfl <;> rfl⟩)
    frameE (by simp)
  exact ⟨h.1, h.2 0 (by decide) 0 (by decide)⟩

/-! ### Claim C10: Ms. Pac-Man `reset`/`get_batch` frame effects -/

/-- Claim C10: `MsPacmanBaseDataset.reset` is a no-op on the dataset state,
and `get_batch` returns the state unchanged — it keeps no row cursor and no
permutation; the batch has one entry per oracle draw and the `k`-th item is a
function of the dataset state and the `k`-th draw alone. -/
theorem C10_theorem (s : MsPacman.State) (rands : List MsPacman.ItemRand) :
    MsPacman.reset s = s ∧
    (MsPacman.get_batch s rands).2 = s ∧
    (MsPacman.get_batch s rands).1.1.length = rands.length ∧
    (MsPacman.get_batch s rands).1.2.length = rands.length ∧
    (∀ k : ℕ, (MsPacman.get_batch s rands).1.1[k]? =
      (rands[k]?).map (fun r => (MsPacman.getItem s r).1)) ∧
    (∀ k : ℕ, (MsPacman.get_batch s rands).1.2[k]? =
      (rands[k]?).map (fun r => (MsPacman.getItem s r).2)) := by
  refine ⟨rfl, rfl, by simp [MsPacman.get_batch],
    by simp [MsPacman.get_batch], ?_, ?_⟩
  · intro k
    simp [MsPacman.get_batch, List.getElem?_map]
  · intro k
    simp [MsPacman.get_batch, List.getElem?_map]

/-! ### Claim C1: the batch output contract -/

/-- Every value of the batch lies in `[0, 1]` and is a stored uint8 pixel
value divided by 255. -/
def vals01div255 (b : List (List Frame)) : Prop :=
  ∀ v, memBatch v b → (0 ≤ v ∧ v ≤ 1) ∧ ∃ u, 0 ≤ u ∧ u ≤ 255 ∧ v = u / 255

lemma div255_bounds {u : ℚ} (h0 : 0 ≤ u) (h1 : u ≤ 255) :
    0 ≤ u / 255 ∧ u / 255 ≤ 1 :=
  ⟨div_nonneg h0 (by norm_num), (div_le_one (by norm_num)).mpr h1⟩

lemma getD_mem {α : Type _} (l : List α) (i : ℕ) (d : α) (h : i < l.length) :
    l.getD i d ∈ l := by
  rw [List.getD_eq_getElem _ _ h]
  exact List.getElem_mem h

namespace MsPacman

/-- Every stored frame of the catalog decodes to a 210×160×3 uint8 array. -/
def validData (s : State) : Prop :=
  ∀ seq ∈ s.data, ∀ f ∈ seq,
    frameShape f FRAME_HEIGHT FRAME_WIDTH FRAME_CHANNELS ∧ uint8Frame f

/-- The ranges the random draws of one item satisfy when the source's calls
return: `np.random.choice(true_size)` keeps the sequence index in range,
`random.randint(0, count - total)` keeps the whole window inside the
sequence, and the offset `randint`s keep every crop inside the frame. -/
def validRand (s : State) (r : ItemRand) : Prop :=
  r.seqIdx < s.data.length ∧
  r.startIdx + s.input_seq_length + s.target_seq_length ≤
    (s.data.getD r.seqIdx []).length ∧
  ∀ j cs, s.crop_size = some cs →
    (r.offs j).1 + cs.1 ≤ FRAME_HEIGHT ∧ (r.offs j).2 + cs.2 ≤ FRAME_WIDTH

lemma applyCrop_shape (s : State) (oy ox : ℕ) (f : Frame)
    (hf : frameShape f FRAME_HEIGHT FRAME_WIDTH FRAME_CHANNELS)
    (hb : ∀ cs, s.crop_size = some cs →
      oy + cs.1 ≤ FRAME_HEIGHT ∧ ox + cs.2 ≤ FRAME_WIDTH) :
    frameShape (applyCrop s oy ox f) (dimH s) (dimW s) FRAME_CHANNELS := by
  rcases hcs : s.crop_size with _ | cs
  · simpa [applyCrop, dimH, dimW, hcs] using hf
  · have hbb := hb cs hcs
    simp only [applyCrop, dimH, dimW, hcs]
    exact frameShape_cropFrame f _ _ _ _ _ _ _ hf hbb.1 hbb.2

lemma render_shape (s : State) (oy ox : ℕ) (flip : Bool) (f : Frame)
    (hf : frameShape f FRAME_HEIGHT FRAME_WIDTH FRAME_CHANNELS)
    (hb : ∀ cs, s.crop_size = some cs →
      oy + cs.1 ≤ FRAME_HEIGHT ∧ ox + cs.2 ≤ FRAME_WIDTH) :
    frameShape (render s oy ox flip f) (dimH s) (dimW s) FRAME_CHANNELS := by
  unfold render
  cases flip
  · simpa using applyCrop_shape s oy ox f hf hb
  · simpa using frameShape_flipFrame _ _ _ _ (applyCrop_shape s oy ox f hf hb)

lemma memFrame_applyCrop {v : ℚ} (s : State) {oy ox : ℕ} {f : Frame}
    (h : memFrame v (applyCrop s oy ox f)) : memFrame v f := by
  rcases hcs : s.crop_size with _ | cs
  · simpa [applyCrop, hcs] using h
  · simp only [applyCrop, hcs] at h
    exact memFrame_cropFrame h

lemma memFrame_render {v : ℚ} (s : State) {oy ox : ℕ} {flip : Bool}
    {f : Frame} (h : memFrame v (render s oy ox flip f)) : memFrame v f := by
  unfold render at h
  cases flip
  · simp only [Bool.false_eq_true, if_false] at h
    exact memFrame_applyCrop s h
  · simp only [if_true] at h
    exact memFrame_applyCrop s (memFrame_flipFrame h)

/-- Shapes and values of a rendered, normalised frame sequence. -/
lemma rendered_seq_spec (s : State) (xs : List Frame) (oy ox : ℕ)
    (flip : Bool) (L : ℕ) (hlen : xs.length = L)
    (hxs : ∀ f ∈ xs, frameShape f FRAME_HEIGHT FRAME_WIDTH FRAME_CHANNELS ∧
      uint8Frame f)
    (hb : ∀ cs, s.crop_size = some cs →
      oy + cs.1 ≤ FRAME_HEIGHT ∧ ox + cs.2 ≤ FRAME_WIDTH) :
    seqShape ((xs.map (render s oy ox flip)).map normFrame) L
      (dimH s) (dimW s) FRAME_CHANNELS ∧
    ∀ v, memSeq v ((xs.map (render s oy ox flip)).map normFrame) →
      ∃ u, 0 ≤ u ∧ u ≤ 255 ∧ v = u / 255 := by
  constructor
  · refine ⟨by simp [hlen], ?_⟩
    intro g hg
    simp only [List.mem_map] at hg
    obtain ⟨g0, hg0, rfl⟩ := hg
    obtain ⟨f0, hf0, rfl⟩ := hg0
    exact frameShape_normFrame _ _ _ _
      (render_shape s oy ox flip f0 (hxs f0 hf0).1 hb)
  · intro v hv
    obtain ⟨g, hg, hvg⟩ := hv
    simp only [List.mem_map] at hg
    obtain ⟨g0, hg0, rfl⟩ := hg
    obtain ⟨f0, hf0, rfl⟩ := hg0
    obtain ⟨u, hu, rfl⟩ := memFrame_normFrame hvg
    have humem : memFrame u f0 := memFrame_render s hu
    obtain ⟨h0, h1⟩ := (hxs f0 hf0).2 u humem
    exact ⟨u, h0, h1, rfl⟩

/-- Shapes and value provenance of one Ms. Pac-Man batch item. -/
lemma getItem_spec (s : State) (r : ItemRand) (hd : validData s)
    (hr : validRand s r) :
    seqShape (getItem s r).1 s.input_seq_length (dimH s) (dimW s)
      FRAME_CHANNELS ∧
    seqShape (getItem s r).2 s.target_seq_length (dimH s) (dimW s)
      FRAME_CHANNELS ∧
    (∀ v, memSeq v (getItem s r).1 → ∃ u, 0 ≤ u ∧ u ≤ 255 ∧ v = u / 255) ∧
    (∀ v, memSeq v (getItem s r).2 → ∃ u, 0 ≤ u ∧ u ≤ 255 ∧ v = u / 255) := by
  obtain ⟨hidx, hstart, hoffs⟩ := hr
  have hseqmem : s.data.getD r.seqIdx [] ∈ s.data := getD_mem _ _ _ hidx
  have hframes : ∀ f ∈ s.data.getD r.seqIdx [],
      frameShape f FRAME_HEIGHT FRAME_WIDTH FRAME_CHANNELS ∧ uint8Frame f :=
    fun f hf => hd _ hseqmem f hf
  have hb : ∀ j cs, s.crop_size = some cs →
      (drawOffsets s r j).1 + cs.1 ≤ FRAME_HEIGHT ∧
      (drawOffsets s r j).2 + cs.2 ≤ FRAME_WIDTH := by
    intro j cs hcs
    simpa [drawOffsets, hcs] using hoffs j cs hcs
  have hinlen : (((s.data.getD r.seqIdx []).drop r.startIdx).take
      s.input_seq_length).length = s.input_seq_length := by
    simp only [List.length_take, List.length_drop]
    omega
  have htglen : (((s.data.getD r.seqIdx []).drop
      (r.startIdx + s.input_seq_length)).take s.target_seq_length).length =
      s.target_seq_length := by
    simp only [List.length_take, List.length_drop]
    omega
  have hinmem : ∀ f ∈ ((s.data.getD r.seqIdx []).drop r.startIdx).take
      s.input_seq_length,
      frameShape f FRAME_HEIGHT FRAME_WIDTH FRAME_CHANNELS ∧ uint8Frame f :=
    fun f hf => hframes f (List.mem_of_mem_drop (List.mem_of_mem_take hf))
  have htgmem : ∀ f ∈ ((s.data.getD r.seqIdx []).drop
      (r.startIdx + s.input_seq_length)).take s.target_seq_length,
      frameShape f FRAME_HEIGHT FRAME_WIDTH FRAME_CHANNELS ∧ uint8Frame f :=
    fun f hf => hframes f (List.mem_of_mem_drop (List.mem_of_mem_take hf))
  simp only [getItem, retryLoop_spec, renderedInputs]
  set a := acceptIdx s (((s.data.getD r.seqIdx []).drop r.startIdx).take
    s.input_seq_length) r with ha
  have hin := rendered_seq_spec s
    (((s.data.getD r.seqIdx []).drop r.startIdx).take s.input_seq_length)
    (drawOffsets s r a).1 (drawOffsets s r a).2 (flipAt s r a)
    s.input_seq_length hinlen hinmem (hb a)
  have htg := rendered_seq_spec s
    (((s.data.getD r.seqIdx []).drop
      (r.startIdx + s.input_seq_length)).take s.target_seq_length)
    (drawOffsets s r a).1 (drawOffsets s r a).2 (flipAt s r a)
    s.target_seq_length htglen htgmem (hb a)
  exact ⟨hin.1, htg.1, hin.2, htg.2⟩

/-- Shapes and values of a full Ms. Pac-Man batch. -/
lemma batch_spec_pac (s : State) (rands : List ItemRand) (hd : validData s)
    (hr : ∀ r ∈ rands, validRand s r) :
    batchShape (get_batch s rands).1.1 rands.length s.input_seq_length
      (dimH s) (dimW s) FRAME_CHANNELS ∧
    batchShape (get_batch s rands).1.2 rands.length s.target_seq_length
      (dimH s) (dimW s) FRAME_CHANNELS ∧
    vals01div255 (get_batch s rands).1.1 ∧
    vals01div255 (get_batch s rands).1.2 := by
  refine ⟨⟨by simp [get_batch], ?_⟩, ⟨by simp [get_batch], ?_⟩, ?_, ?_⟩
  · intro x hx
    simp only [get_batch, List.mem_map] at hx
    obtain ⟨r, hrm, rfl⟩ := hx
    exact (getItem_spec s r hd (hr r hrm)).1
  · intro x hx
    simp only [get_batch, List.mem_map] at hx
    obtain ⟨r, hrm, rfl⟩ := hx
    exact (getItem_spec s r hd (hr r hrm)).2.1
  · intro v hv
    obtain ⟨x, hx, hvx⟩ := hv
    simp only [get_batch, List.mem_map] at hx
    obtain ⟨r, hrm, rfl⟩ := hx
    obtain ⟨u, h0, h1, rfl⟩ := (getItem_spec s r hd (hr r hrm)).2.2.1 v hvx
    exact ⟨div255_bounds h0 h1, u, h0, h1, rfl⟩
  · intro v hv
    obtain ⟨x, hx, hvx⟩ := hv
    simp only [get_batch, List.mem_map] at hx
    obtain ⟨r, hrm, rfl⟩ := hx
    obtain ⟨u, h0, h1, rfl⟩ := (getItem_spec s r hd (hr r hrm)).2.2.2 v hvx
    exact ⟨div255_bounds h0 h1, u, h0, h1, rfl⟩

end MsPacman

lemma seqShape_normalise {xs : List Frame} {L h w c : ℕ}
    (hs : seqShape xs L h w c) : seqShape (xs.map normFrame) L h w c := by
  refine ⟨by simp [hs.1], ?_⟩
  intro g hg
  obtain ⟨f, hf, rfl⟩ := List.mem_map.mp hg
  exact frameShape_normFrame _ _ _ _ (hs.2 f hf)

lemma memSeq_normFrame {v : ℚ} {xs : List Frame}
    (h : memSeq v (xs.map normFrame)) : ∃ u, memSeq u xs ∧ v = u / 255 := by
  obtain ⟨g, hg, hvg⟩ := h
  obtain ⟨f, hf, rfl⟩ := List.mem_map.mp hg
  obtain ⟨u, hu, rfl⟩ := memFrame_normFrame hvg
  exact ⟨u, ⟨f, hf, hu⟩, rfl⟩

namespace UCF101

/-- Every serialized file decodes to `serialized_sequence_length` frames of
shape `[img_h, img_w, img_c]` with uint8 values. -/
def validData (s : State) : Prop :=
  ∀ file ∈ s.fileData, file.length = s.serialized_sequence_length ∧
    ∀ f ∈ file, frameShape f s.img_h s.img_w s.img_c ∧ uint8Frame f

/-- The ranges the per-item random draws satisfy when the source's `randint`
calls return: the slice fits inside the serialized sequence and every drawn
crop offset keeps the crop inside the image. -/
def validItemRand (s : State) (r : ItemRand) : Prop :=
  r.start_t + (s.input_seq_length + s.target_seq_length) ≤
    s.serialized_sequence_length ∧
  ∀ j cs, s.crop_size = some cs →
    (r.offs j).1 + cs.1 ≤ s.img_h ∧ (r.offs j).2 + cs.2 ≤ s.img_w

/-- The permutation only holds indices into the file list. -/
def validIndices (s : State) : Prop := ∀ i ∈ s.indices, i < s.fileData.length

/-- The batch oracle only produces valid shuffles and valid item draws. -/
def validBatchRand (s : State) (br : BatchRand) : Prop :=
  (∀ i ∈ br.shuffled, i < s.fileData.length) ∧
  ∀ k, validItemRand s (br.items k)

lemma ind_range_subset (indices : List ℕ) (start e : ℕ) :
    ∀ x ∈ ind_range indices start e, x ∈ indices := by
  intro x hx
  unfold ind_range at hx
  split at hx
  · rcases List.mem_append.mp hx with h | h
    · exact List.mem_of_mem_drop h
    · exact List.mem_of_mem_take h
  · exact List.mem_of_mem_drop (List.mem_of_mem_take hx)

/-- The offset-selection loop only ever returns offsets the oracle drew. -/
lemma chooseOffset_eq_offs (s : State) (cur : List Frame) (r : ItemRand)
    (ch cw : ℕ) : ∀ fuel retry, ∃ j,
      chooseOffset s cur r ch cw fuel retry = r.offs j := by
  intro fuel
  induction fuel with
  | zero =>
    intro retry
    exact ⟨retry, rfl⟩
  | succ fuel ih =>
    intro retry
    cases fuel with
    | zero => exact ⟨retry, rfl⟩
    | succ fuel2 =>
      simp only [chooseOffset]
      by_cases hskip : s.skip_less_movement = true
      · rw [if_pos hskip]
        by_cases hmv : enough_l2_movement
            ((cropSeq ch cw (r.offs retry).1 (r.offs retry).2 cur).take
              s.input_seq_length) = true
        · rw [if_pos hmv]
          exact ⟨retry, rfl⟩
        · rw [if_neg hmv]
          exact ih (retry + 1)
      · rw [if_neg hskip]
        exact ⟨retry, rfl⟩

/-- Shapes and value range of the cropped slice of one item. -/
lemma croppedItem_spec (s : State) (fi : ℕ) (r : ItemRand)
    (hd : validData s) (hfi : fi < s.fileData.length)
    (hr : validItemRand s r) :
    seqShape (croppedItem s fi r)
      (s.input_seq_length + s.target_seq_length) (dimH s) (dimW s) s.img_c ∧
    ∀ v, memSeq v (croppedItem s fi r) → 0 ≤ v ∧ v ≤ 255 := by
  obtain ⟨hstart, hoffs⟩ := hr
  have hfile := hd _ (getD_mem s.fileData fi [] hfi)
  have hlen1 : (((s.fileData.getD fi []).drop r.start_t).take
      (s.input_seq_length + s.target_seq_length)).length =
      s.input_seq_length + s.target_seq_length := by
    simp only [List.length_take, List.length_drop, hfile.1]
    omega
  have hmem1 : ∀ f ∈ ((s.fileData.getD fi []).drop r.start_t).take
      (s.input_seq_length + s.target_seq_length),
      frameShape f s.img_h s.img_w s.img_c ∧ uint8Frame f :=
    fun f hf => hfile.2 f (List.mem_of_mem_drop (List.mem_of_mem_take hf))
  rcases hcs : s.crop_size with _ | cs
  · constructor
    · simp only [croppedItem, hcs]
      exact ⟨hlen1, fun f hf => by
        simpa [dimH, dimW, hcs] using (hmem1 f hf).1⟩
    · intro v hv
      simp only [croppedItem, hcs] at hv
      obtain ⟨f, hf, hvf⟩ := hv
      exact (hmem1 f hf).2 v hvf
  · obtain ⟨j, hj⟩ := chooseOffset_eq_offs s
      (((s.fileData.getD fi []).drop r.start_t).take
        (s.input_seq_length + s.target_seq_length)) r cs.1 cs.2 MAX_TRIES 0
    have hbj := hoffs j cs hcs
    constructor
    · simp only [croppedItem, hcs, hj]
      refine ⟨by simp only [cropSeq, List.length_map]; exact hlen1, ?_⟩
      intro g hg
      simp only [cropSeq, List.mem_map] at hg
      obtain ⟨f0, hf0, rfl⟩ := hg
      have hsh := frameShape_cropFrame f0 s.img_h s.img_w s.img_c cs.1 cs.2
        (r.offs j).1 (r.offs j).2 (hmem1 f0 hf0).1 hbj.1 hbj.2
      simpa [dimH, dimW, hcs] using hsh
    · intro v hv
      simp only [croppedItem, hcs, hj] at hv
      obtain ⟨g, hg, hvg⟩ := hv
      simp only [cropSeq, List.mem_map] at hg
      obtain ⟨f0, hf0, rfl⟩ := hg
      exact (hmem1 f0 hf0).2 v (memFrame_cropFrame hvg)

/-- Shapes and value range of one fully processed item (before the final
normalisation). -/
lemma processItem_spec (s : State) (fi vr : ℕ) (r : ItemRand)
    (hd : validData s) (hfi : fi < s.fileData.length)
    (hr : validItemRand s r) :
    seqShape (processItem s fi vr r).1 s.input_seq_length
      (dimH s) (dimW s) s.img_c ∧
    seqShape (processItem s fi vr r).2 s.target_seq_length
      (dimH s) (dimW s) s.img_c ∧
    (∀ v, memSeq v (processItem s fi vr r).1 → 0 ≤ v ∧ v ≤ 255) ∧
    (∀ v, memSeq v (processItem s fi vr r).2 → 0 ≤ v ∧ v ≤ 255) := by
  obtain ⟨⟨hclen, hcshape⟩, hcvals⟩ := croppedItem_spec s fi r hd hfi hr
  have key : ∀ (c3 : List Frame),
      c3.length = s.input_seq_length + s.target_seq_length →
      (∀ f ∈ c3, frameShape f (dimH s) (dimW s) s.img_c) →
      (∀ v, memSeq v c3 → 0 ≤ v ∧ v ≤ 255) →
      seqShape (c3.take s.input_seq_length) s.input_seq_length
        (dimH s) (dimW s) s.img_c ∧
      seqShape ((c3.drop s.input_seq_length).take
        (s.input_seq_length + s.target_seq_length)) s.target_seq_length
        (dimH s) (dimW s) s.img_c ∧
      (∀ v, memSeq v (c3.take s.input_seq_length) → 0 ≤ v ∧ v ≤ 255) ∧
      (∀ v, memSeq v ((c3.drop s.input_seq_length).take
        (s.input_seq_length + s.target_seq_length)) → 0 ≤ v ∧ v ≤ 255) := by
    intro c3 hl hs3 hv3
    refine ⟨⟨by rw [List.length_take, hl]; omega,
        fun f hf => hs3 f (List.mem_of_mem_take hf)⟩,
      ⟨by rw [List.length_take, List.length_drop, hl]; omega,
        fun f hf => hs3 f (List.mem_of_mem_drop (List.mem_of_mem_take hf))⟩,
      ?_, ?_⟩
    · intro v hv
      obtain ⟨f, hf, hvf⟩ := hv
      exact hv3 v ⟨f, List.mem_of_mem_take hf, hvf⟩
    · intro v hv
      obtain ⟨f, hf, hvf⟩ := hv
      exact hv3 v ⟨f, List.mem_of_mem_drop (List.mem_of_mem_take hf), hvf⟩
  by_cases hflip : (s.double_with_flipped && flipCond s vr) = true
  · have h3 := key ((croppedItem s fi r).map flipFrame) (by simp [hclen])
      (fun f hf => by
        obtain ⟨f0, hf0, rfl⟩ := List.mem_map.mp hf
        exact frameShape_flipFrame _ _ _ _ (hcshape f0 hf0))
      (fun v hv => by
        obtain ⟨g, hg, hvg⟩ := hv
        obtain ⟨f0, hf0, rfl⟩ := List.mem_map.mp hg
        exact hcvals v ⟨f0, hf0, memFrame_flipFrame hvg⟩)
    simpa only [processItem, hflip, if_true] using h3
  · have h3 := key (croppedItem s fi r) hclen hcshape hcvals
    simpa only [processItem, hflip, if_false] using h3

/-- Shapes and values of a batch produced from an arbitrary post-reset state
`s1`, a valid index window and valid item draws. -/
lemma batch_core_spec (s1 : State) (batch_size : ℕ) (br : BatchRand)
    (hd1 : validData s1) (hi1 : ∀ i ∈ s1.indices, i < s1.fileData.length)
    (hir1 : ∀ k, validItemRand s1 (br.items k)) (inds : List ℕ)
    (hsub : ∀ x ∈ inds, x ∈ s1.indices) (hl : inds.length = batch_size)
    (row0 : ℕ) :
    batchShape (((List.range batch_size).map (fun i =>
        processItem s1 (inds.getD i 0) (row0 + i) (br.items i))).map
        (fun it => it.1.map normFrame)) batch_size s1.input_seq_length
      (dimH s1) (dimW s1) s1.img_c ∧
    batchShape (((List.range batch_size).map (fun i =>
        processItem s1 (inds.getD i 0) (row0 + i) (br.items i))).map
        (fun it => it.2.map normFrame)) batch_size s1.target_seq_length
      (dimH s1) (dimW s1) s1.img_c ∧
    vals01div255 (((List.range batch_size).map (fun i =>
        processItem s1 (inds.getD i 0) (row0 + i) (br.items i))).map
        (fun it => it.1.map normFrame)) ∧
    vals01div255 (((List.range batch_size).map (fun i =>
        processItem s1 (inds.getD i 0) (row0 + i) (br.items i))).map
        (fun it => it.2.map normFrame)) := by
  have hfi : ∀ i, i < batch_size → inds.getD i 0 < s1.fileData.length := by
    intro i hi
    exact hi1 _ (hsub _ (getD_mem inds i 0 (by omega)))
  have hspec : ∀ i, i < batch_size →
      seqShape (processItem s1 (inds.getD i 0) (row0 + i) (br.items i)).1
        s1.input_seq_length (dimH s1) (dimW s1) s1.img_c ∧
      seqShape (processItem s1 (inds.getD i 0) (row0 + i) (br.items i)).2
        s1.target_seq_length (dimH s1) (dimW s1) s1.img_c ∧
      (∀ v, memSeq v (processItem s1 (inds.getD i 0) (row0 + i)
        (br.items i)).1 → 0 ≤ v ∧ v ≤ 255) ∧
      (∀ v, memSeq v (processItem s1 (inds.getD i 0) (row0 + i)
        (br.items i)).2 → 0 ≤ v ∧ v ≤ 255) :=
    fun i hi => processItem_spec s1 (inds.getD i 0) (row0 + i) (br.items i)
      hd1 (hfi i hi) (hir1 i)
  refine ⟨⟨by simp, ?_⟩, ⟨by simp, ?_⟩, ?_, ?_⟩
  · intro x hx
    simp only [List.mem_map] at hx
    obtain ⟨it, hit, rfl⟩ := hx
    obtain ⟨i, hi2, rfl⟩ := hit
    exact seqShape_normalise ((hspec i (List.mem_range.mp hi2)).1)
  · intro x hx
    simp only [List.mem_map] at hx
    obtain ⟨it, hit, rfl⟩ := hx
    obtain ⟨i, hi2, rfl⟩ := hit
    exact seqShape_normalise ((hspec i (List.mem_range.mp hi2)).2.1)
  · intro v hv
    obtain ⟨x, hx, hvx⟩ := hv
    simp only [List.mem_map] at hx
    obtain ⟨it, hit, rfl⟩ := hx
    obtain ⟨i, hi2, rfl⟩ := hit
    obtain ⟨u, hu, rfl⟩ := memSeq_normFrame hvx
    obtain ⟨h0, h1⟩ := (hspec i (List.mem_range.mp hi2)).2.2.1 u hu
    exact ⟨div255_bounds h0 h1, u, h0, h1, rfl⟩
  · intro v hv
    obtain ⟨x, hx, hvx⟩ := hv
    simp only [List.mem_map] at hx
    obtain ⟨it, hit, rfl⟩ := hx
    obtain ⟨i, hi2, rfl⟩ := hit
    obtain ⟨u, hu, rfl⟩ := memSeq_normFrame hvx
    obtain ⟨h0, h1⟩ := (hspec i (List.mem_range.mp hi2)).2.2.2 u hu
    exact ⟨div255_bounds h0 h1, u, h0, h1, rfl⟩

/-- Shapes and values of everything `UCF101BaseEvaluationDataset.get_batch`
returns (whenever it returns at all). -/
lemma batch_spec_ucf (s : State) (batch_size : ℕ) (br : BatchRand)
    (out : (List (List Frame) × List (List Frame)) × State)
    (hd : validData s) (hi : validIndices s) (hbr : validBatchRand s br)
    (hret : get_batch s batch_size br = some out) :
    batchShape out.1.1 batch_size s.input_seq_length
      (dimH s) (dimW s) s.img_c ∧
    batchShape out.1.2 batch_size s.target_seq_length
      (dimH s) (dimW s) s.img_c ∧
    vals01div255 out.1.1 ∧
    vals01div255 out.1.2 := by
  simp only [get_batch] at hret
  by_cases hreset : s.size ≤ s.row + batch_size
  · rw [if_pos hreset] at hret
    by_cases hl : (ind_range (reset s br.shuffled).indices
        ((reset s br.shuffled).row % (reset s br.shuffled).real_dataset_size)
        (((reset s br.shuffled).row % (reset s br.shuffled).real_dataset_size +
          batch_size) % (reset s br.shuffled).real_dataset_size)).length =
        batch_size
    · rw [if_pos hl] at hret
      have hout := Option.some.inj hret
      subst hout
      exact batch_core_spec (reset s br.shuffled) batch_size br hd
        (fun i h => hbr.1 i h) hbr.2 _
        (ind_range_subset _ _ _) hl _
    · rw [if_neg hl] at hret
      exact absurd hret (by simp)
  · rw [if_neg hreset] at hret
    by_cases hl : (ind_range s.indices (s.row % s.real_dataset_size)
        ((s.row % s.real_dataset_size + batch_size) %
          s.real_dataset_size)).length = batch_size
    · rw [if_pos hl] at hret
      have hout := Option.some.inj hret
      subst hout
      exact batch_core_spec s batch_size br hd hi hbr.2 _
        (ind_range_subset _ _ _) hl _
    · rw [if_neg hl] at hret
      exact absurd hret (by simp)

end UCF101

/-- Claim C1: for every batch for which `get_batch` of the UCF-101
evaluation dataset or of the Ms. Pac-Man dataset returns, and given that
every stored frame is a uint8 array of the configured shape, the inputs have
shape `[batch_size] ++ input_shape`, the targets have shape
`[batch_size] ++ target_shape`, and every element of both arrays lies in
`[0, 1]` and equals a stored pixel value divided by 255. -/
theorem C1_theorem (sp : MsPacman.State) (rands : List MsPacman.ItemRand)
    (su : UCF101.State) (batch_size : ℕ) (br : UCF101.BatchRand)
    (out : (List (List Frame) × List (List Frame)) × UCF101.State)
    (hpd : MsPacman.validData sp)
    (hpr : ∀ r ∈ rands, MsPacman.validRand sp r)
    (hud : UCF101.validData su) (hui : UCF101.validIndices su)
    (hub : UCF101.validBatchRand su br)
    (hret : UCF101.get_batch su batch_size br = some out) :
    (MsPacman.input_shape sp = [sp.input_seq_length, MsPacman.dimH sp,
        MsPacman.dimW sp, MsPacman.FRAME_CHANNELS] ∧
      MsPacman.target_shape sp = [sp.target_seq_length, MsPacman.dimH sp,
        MsPacman.dimW sp, MsPacman.FRAME_CHANNELS] ∧
      batchShape (MsPacman.get_batch sp rands).1.1 rands.length
        sp.input_seq_length (MsPacman.dimH sp) (MsPacman.dimW sp)
        MsPacman.FRAME_CHANNELS ∧
      batchShape (MsPacman.get_batch sp rands).1.2 rands.length
        sp.target_seq_length (MsPacman.dimH sp) (MsPacman.dimW sp)
        MsPacman.FRAME_CHANNELS ∧
      vals01div255 (MsPacman.get_batch sp rands).1.1 ∧
      vals01div255 (MsPacman.get_batch sp rands).1.2) ∧
    (UCF101.input_shape su = [su.input_seq_length, UCF101.dimH su,
        UCF101.dimW su, su.img_c] ∧
      UCF101.target_shape su = [su.target_seq_length, UCF101.dimH su,
        UCF101.dimW su, su.img_c] ∧
      batchShape out.1.1 batch_size su.input_seq_length (UCF101.dimH su)
        (UCF101.dimW su) su.img_c ∧
      batchShape out.1.2 batch_size su.target_seq_length (UCF101.dimH su)
        (UCF101.dimW su) su.img_c ∧
      vals01div255 out.1.1 ∧
      vals01div255 out.1.2) := by
  obtain ⟨hp1, hp2, hp3, hp4⟩ := MsPacman.batch_spec_pac sp rands hpd hpr
  obtain ⟨hu1, hu2, hu3, hu4⟩ :=
    UCF101.batch_spec_ucf su batch_size br out hud hui hub hret
  exact ⟨⟨MsPacman.input_shape_dims_pac sp, MsPacman.target_shape_dims_pac sp,
      hp1, hp2, hp3, hp4⟩,
    ⟨UCF101.input_shape_dims_ucf su, UCF101.target_shape_dims_ucf su,
      hu1, hu2, hu3, hu4⟩⟩

lemma frameShape_replicate (h w c : ℕ) (q : ℚ) :
    frameShape (List.replicate h (List.replicate w (List.replicate c q)))
      h w c := by
  refine ⟨by simp, ?_⟩
  intro row hrow
  rw [List.eq_of_mem_replicate hrow]
  refine ⟨by simp, ?_⟩
  intro p hp
  rw [List.eq_of_mem_replicate hp]
  simp

lemma uint8Frame_replicate (h w c : ℕ) (q : ℚ) (h0 : 0 ≤ q) (h1 : q ≤ 255) :
    uint8Frame (List.replicate h (List.replicate w (List.replicate c q))) := by
  intro v hv
  obtain ⟨row, hrow, p, hp, hvp⟩ := hv
  rw [List.eq_of_mem_replicate hrow] at hp
  rw [List.eq_of_mem_replicate hp] at hvp
  rw [List.eq_of_mem_replicate hvp]
  exact ⟨h0, h1⟩

/-- A native-resolution all-black Ms. Pac-Man frame (210×160×3). -/
def frameZero : Frame :=
  List.replicate MsPacman.FRAME_HEIGHT
    (List.replicate MsPacman.FRAME_WIDTH
      (List.replicate MsPacman.FRAME_CHANNELS (0 : ℚ)))

/-- Concrete Ms. Pac-Man dataset: one stored sequence of two frames,
1-frame input and target windows, no cropping. -/
def spC1 : MsPacman.State :=
  { data := [[frameZero, frameZero]], input_seq_length := 1,
    target_seq_length := 1, crop_size := none, repetitions_per_epoche := 1,
    skip_less_movement := false, random_flip := false }

/-- Concrete Ms. Pac-Man item draws. -/
def rpC1 : MsPacman.ItemRand := ⟨0, 0, false, fun _ => (0, 0)⟩

/-- A 1×1×1 black frame. -/
def framePix : Frame := [[[(0 : ℚ)]]]

/-- Concrete UCF-101 evaluation dataset: two serialized files of two 1×1×1
frames, 1-frame windows, no cropping, no flip doubling. -/
def suC1 : UCF101.State :=
  { fileData := [[framePix, framePix], [framePix, framePix]]
    indices := [0, 1], row := 0, real_dataset_size := 2, size := 8,
    serialized_sequence_length := 2, input_seq_length := 1,
    target_seq_length := 1, img_h := 1, img_w := 1, img_c := 1,
    crop_size := none, double_with_flipped := false,
    skip_less_movement := false }

/-- Concrete UCF-101 batch oracle. -/
def brC1 : UCF101.BatchRand := ⟨[0, 1], fun _ => ⟨0, fun _ => (0, 0)⟩⟩

/-- What `get_batch suC1 1 brC1` evaluates to. -/
def outC1 : (List (List Frame) × List (List Frame)) × UCF101.State :=
  (([[[[[(0 : ℚ) / 255]]]]], [[[[[(0 : ℚ) / 255]]]]]), { suC1 with row := 1 })

/-- Claim C1 (witness): the batch contract applied to concrete Ms. Pac-Man
and UCF-101 datasets, with `UCF101.get_batch suC1 1 brC1` evaluated. -/
theorem C1_witness :
    batchShape (MsPacman.get_batch spC1 [rpC1]).1.1 1 1
      (MsPacman.dimH spC1) (MsPacman.dimW spC1) MsPacman.FRAME_CHANNELS ∧
    batchShape outC1.1.1 1 1 (UCF101.dimH suC1) (UCF101.dimW suC1)
      suC1.img_c ∧
    vals01div255 outC1.1.1 := by
  have hframe : frameShape frameZero MsPacman.FRAME_HEIGHT
      MsPacman.FRAME_WIDTH MsPacman.FRAME_CHANNELS :=
    frameShape_replicate _ _ _ _
  have hu8 : uint8Frame frameZero :=
    uint8Frame_replicate _ _ _ _ le_rfl (by norm_num)
  have hpd : MsPacman.validData spC1 := by
    intro seq hseq
    simp only [spC1, List.mem_singleton] at hseq
    subst hseq
    intro f hf
    simp only [List.mem_cons, List.not_mem_nil, or_false] at hf
    rcases hf with rfl | rfl <;> exact ⟨hframe, hu8⟩
  have hpr : ∀ r ∈ [rpC1], MsPacman.validRand spC1 r := by
    intro r hr
    simp only [List.mem_singleton] at hr
    subst hr
    exact ⟨by decide, by decide, fun j cs h => by simp [spC1] at h⟩
  have hpix : frameShape framePix 1 1 1 := frameShape_replicate 1 1 1 0
  have hpix8 : uint8Frame framePix :=
    uint8Frame_replicate 1 1 1 0 le_rfl (by norm_num)
  have hud : UCF101.validData suC1 := by
    intro file hfile
    simp only [suC1, List.mem_cons, List.not_mem_nil, or_false] at hfile
    rcases hfile with rfl | rfl <;>
      exact ⟨rfl, by
        intro f hf
        simp only [List.mem_cons, List.not_mem_nil, or_false] at hf
        rcases hf with rfl | rfl <;> exact ⟨hpix, hpix8⟩⟩
  have hui : UCF101.validIndices suC1 := by
    intro i hi
    simp only [suC1, List.mem_cons, List.not_mem_nil, or_false] at hi
    rcases hi with rfl | rfl <;> simp [suC1]
  have hub : UCF101.validBatchRand suC1 brC1 := by
    refine ⟨?_, ?_⟩
    · intro i hi
      simp only [brC1, List.mem_cons, List.not_mem_nil, or_false] at hi
      rcases hi with rfl | rfl <;> simp [suC1]
    · intro k
      exact ⟨by simp [suC1, brC1], fun j cs h => by simp [suC1] at h⟩
  have h := C1_theorem spC1 [rpC1] suC1 1 brC1 outC1 hpd hpr hud hui hub rfl
  exact ⟨h.1.2.2.1, h.2.2.2.1, h.2.2.2.2.2.1⟩

end TLight
